import Mathlib

/-!
Verification development for the trading-signal core: a shallow embedding of
the indicator engine, the rule-based predictor, the per-symbol signal
throttle, the position lifecycle manager and the signal-generation
orchestration, together with theorems settling the specified properties.

Numeric values are modelled over the rationals (exact arithmetic). Where a
computation can produce IEEE special values (NaN from 0/0, infinity from
division of a positive value by zero), the type `FV` extends the rationals
with those values and mirrors the IEEE propagation rules used by the
numeric library in the source.
-/

namespace TradingCore

/-- A floating-point value: either a finite rational, positive or negative
infinity, or NaN. Signed zero is collapsed to the single rational zero, so
division of a nonzero finite value by zero yields the infinity matching the
sign of the numerator. -/
inductive FV where
  | num (q : ℚ)
  | pinf
  | ninf
  | nan
deriving DecidableEq, Repr

namespace FV

def isNum : FV → Bool
  | num _ => true
  | _ => false

def toQ : FV → ℚ
  | num q => q
  | _ => 0

def add : FV → FV → FV
  | nan, _ => nan
  | _, nan => nan
  | num a, num b => num (a + b)
  | pinf, ninf => nan
  | ninf, pinf => nan
  | pinf, _ => pinf
  | _, pinf => pinf
  | ninf, _ => ninf
  | _, ninf => ninf

def sub : FV → FV → FV
  | nan, _ => nan
  | _, nan => nan
  | num a, num b => num (a - b)
  | pinf, pinf => nan
  | ninf, ninf => nan
  | pinf, _ => pinf
  | _, pinf => ninf
  | ninf, _ => ninf
  | _, ninf => pinf

def mul : FV → FV → FV
  | nan, _ => nan
  | _, nan => nan
  | num a, num b => num (a * b)
  | pinf, pinf => pinf
  | pinf, ninf => ninf
  | ninf, pinf => ninf
  | ninf, ninf => pinf
  | pinf, num b => if 0 < b then pinf else if b < 0 then ninf else nan
  | num a, pinf => if 0 < a then pinf else if a < 0 then ninf else nan
  | ninf, num b => if 0 < b then ninf else if b < 0 then pinf else nan
  | num a, ninf => if 0 < a then ninf else if a < 0 then pinf else nan

def div : FV → FV → FV
  | nan, _ => nan
  | _, nan => nan
  | num a, num b =>
      if b = 0 then (if a = 0 then nan else if 0 < a then pinf else ninf)
      else num (a / b)
  | num _, pinf => num 0
  | num _, ninf => num 0
  | pinf, num b => if b < 0 then ninf else pinf
  | ninf, num b => if b < 0 then pinf else ninf
  | pinf, _ => nan
  | ninf, _ => nan

def fabs : FV → FV
  | num a => num |a|
  | pinf => pinf
  | ninf => pinf
  | nan => nan

end FV

/-- Trade direction, the LONG / SHORT strings of the source. -/
inductive Direction where
  | long
  | short
deriving DecidableEq, Repr

/-- The prediction dictionary built by the three model functions of
EnhancedAIModel. -/
structure Prediction where
  direction : Direction
  confidence : ℚ
  entryPrice : ℚ
  takeProfit : ℚ
  stopLoss : ℚ
  modelName : String
deriving DecidableEq, Repr

/-- The three sub-model names of EnhancedAIModel. -/
inductive ModelName where
  | trendReversal
  | momentum
  | breakout
deriving DecidableEq, Repr

/-- EnhancedAIModel._select_best_model: the rsi and adx arguments are the
values extracted from the indicators snapshot (none when the key is absent).
The try/except wrapper of the source cannot fire in this pure model, since
value extraction is total here. -/
def selectBestModel (rsi adx : Option ℚ) : ModelName :=
  if (match rsi with
      | some r => decide (r < 30) || decide (r > 70)
      | none => false) then
    ModelName.trendReversal
  else if (match adx with
      | some a => decide (a > 25)
      | none => false) then
    ModelName.momentum
  else
    ModelName.breakout

/-- EnhancedAIModel._predict_trend_reversal: rsi is the extracted RSI value
(none when absent), latestPrice the extracted entry price. -/
def predictTrendReversal (rsi : Option ℚ) (latestPrice : ℚ) : Option Prediction :=
  match rsi with
  | none => none
  | some r =>
    if r < 30 then
      let confidence : ℚ := 65/100 + (30 - r) / 100
      some { direction := Direction.long
             confidence := min confidence (95/100)
             entryPrice := latestPrice
             takeProfit := latestPrice * (103/100)
             stopLoss := latestPrice * (98/100)
             modelName := "trend_reversal" }
    else if r > 70 then
      let confidence : ℚ := 65/100 + (r - 70) / 100
      some { direction := Direction.short
             confidence := min confidence (95/100)
             entryPrice := latestPrice
             takeProfit := latestPrice * (97/100)
             stopLoss := latestPrice * (102/100)
             modelName := "trend_reversal" }
    else
      none

/-- EnhancedAIModel._predict_momentum: macdLine and signalLine are the
resolved MACD line and signal line values after the dictionary fallbacks of
the source (none when absent from the snapshot). -/
def predictMomentum (macdLine signalLine : Option ℚ) (latestPrice : ℚ) :
    Option Prediction :=
  match macdLine, signalLine with
  | some m, some s =>
    if m > s then
      some { direction := Direction.long
             confidence := min (68/100 + |m - s| / 10) (95/100)
             entryPrice := latestPrice
             takeProfit := latestPrice * (104/100)
             stopLoss := latestPrice * (97/100)
             modelName := "momentum" }
    else if m < s then
      some { direction := Direction.short
             confidence := min (68/100 + |m - s| / 10) (95/100)
             entryPrice := latestPrice
             takeProfit := latestPrice * (96/100)
             stopLoss := latestPrice * (103/100)
             modelName := "momentum" }
    else
      none
  | _, _ => none

/-- EnhancedAIModel._predict_breakout: bbUpper and bbLower are the Bollinger
band values, adx the extracted ADX, emaFifty and emaMedium the values under
the ema_50 key and its ema_medium fallback. When both EMA values are absent
the source compares the price against None, which raises and is caught by
the handler that returns None; this is the final none branch. The guard
`if adx and adx > 20` of the source is truthiness plus comparison; for a
present rational value it is equivalent to adx > 20. -/
def predictBreakout (bbUpper bbLower adx emaFifty emaMedium : Option ℚ)
    (latestPrice : ℚ) : Option Prediction :=
  match bbUpper, bbLower with
  | some upper, some lower =>
    let bandWidth : ℚ := (upper - lower) / latestPrice
    if bandWidth < 3/100 then
      match adx with
      | some a =>
        if a > 20 then
          match emaFifty.orElse (fun _ => emaMedium) with
          | some e =>
            let direction :=
              if latestPrice > e then Direction.long else Direction.short
            let confidence : ℚ := 72/100 + a / 100
            if direction = Direction.long then
              some { direction := direction
                     confidence := min confidence (95/100)
                     entryPrice := latestPrice
                     takeProfit := latestPrice * (105/100)
                     stopLoss := latestPrice * (96/100)
                     modelName := "breakout" }
            else
              some { direction := direction
                     confidence := min confidence (95/100)
                     entryPrice := latestPrice
                     takeProfit := latestPrice * (95/100)
                     stopLoss := latestPrice * (104/100)
                     modelName := "breakout" }
          | none => none
        else
          none
      | none => none
    else
      none
  | _, _ => none

/-- Prediction of Scenario C, used to instantiate the breakout theorem. -/
def scenarioC : Prediction :=
  { direction := Direction.long
    confidence := 95/100
    entryPrice := 100
    takeProfit := 105
    stopLoss := 96
    modelName := "breakout" }

/-- C6: model selection is a deterministic function of the snapshot values,
evaluated in a fixed order: a defined RSI below 30 or above 70 selects
trend_reversal; otherwise a defined ADX above 25 selects momentum; otherwise
breakout is selected. Repeated calls on the same snapshot agree because the
selection is a pure function. -/
theorem selectBestModel_spec (rsi adx : Option ℚ) :
    (∀ r, rsi = some r → (r < 30 ∨ r > 70) →
        selectBestModel rsi adx = ModelName.trendReversal) ∧
    (∀ a, adx = some a → a > 25 →
        (∀ r, rsi = some r → ¬(r < 30 ∨ r > 70)) →
        selectBestModel rsi adx = ModelName.momentum) ∧
    ((∀ r, rsi = some r → ¬(r < 30 ∨ r > 70)) →
     (∀ a, adx = some a → ¬ a > 25) →
     selectBestModel rsi adx = ModelName.breakout) ∧
    selectBestModel rsi adx = selectBestModel rsi adx := by
  refine ⟨?_, ?_, ?_, rfl⟩
  · intro r hr hcond
    have hb : (decide (r < 30) || decide (r > 70)) = true := by
      rcases hcond with h | h <;> simp [h]
    simp [selectBestModel, hr, hb]
  · intro a ha hgt hnot
    cases rsi with
    | none => simp [selectBestModel, ha, hgt]
    | some r =>
      have h30 := fun h => hnot r rfl (Or.inl h)
      have h70 := fun h => hnot r rfl (Or.inr h)
      simp [selectBestModel, ha, hgt, h30, h70]
      exact ⟨not_lt.mp h30, not_lt.mp h70⟩
  · intro hnotr hnota
    cases rsi with
    | none =>
      cases adx with
      | none => simp [selectBestModel]
      | some a => simp [selectBestModel, hnota a rfl]
    | some r =>
      have h30 := fun h => hnotr r rfl (Or.inl h)
      have h70 := fun h => hnotr r rfl (Or.inr h)
      cases adx with
      | none =>
        simp [selectBestModel, h30, h70]
        exact ⟨not_lt.mp h30, not_lt.mp h70⟩
      | some a =>
        simp [selectBestModel, h30, h70, hnota a rfl]
        exact ⟨not_lt.mp h30, not_lt.mp h70⟩

/-- Witness for C6 at a concrete snapshot with RSI 25. -/
theorem selectBestModel_spec_w :
    selectBestModel (some 25) none = ModelName.trendReversal :=
  (selectBestModel_spec (some 25) none).1 25 rfl (Or.inl (by norm_num))

/-- C7: the trend_reversal model on a snapshot with a defined RSI returns a
LONG prediction with confidence min(0.65 + (30−RSI)/100, 0.95), take profit
entry·1.03 and stop loss entry·0.98 when RSI < 30; the mirrored SHORT
prediction when RSI > 70; and no prediction otherwise. -/
theorem predictTrendReversal_spec (r lp : ℚ) :
    (r < 30 → predictTrendReversal (some r) lp =
      some { direction := Direction.long
             confidence := min (65/100 + (30 - r)/100) (95/100)
             entryPrice := lp
             takeProfit := lp * (103/100)
             stopLoss := lp * (98/100)
             modelName := "trend_reversal" }) ∧
    (r > 70 → predictTrendReversal (some r) lp =
      some { direction := Direction.short
             confidence := min (65/100 + (r - 70)/100) (95/100)
             entryPrice := lp
             takeProfit := lp * (97/100)
             stopLoss := lp * (102/100)
             modelName := "trend_reversal" }) ∧
    (¬ r < 30 → ¬ r > 70 → predictTrendReversal (some r) lp = none) := by
  refine ⟨?_, ?_, ?_⟩
  · intro h
    simp [predictTrendReversal, h]
  · intro h
    have h30 : ¬ r < 30 := by linarith
    simp [predictTrendReversal, h, h30]
  · intro h30 h70
    simp [predictTrendReversal, h30, h70]

/-- Witness for C7, Scenario A: RSI 25 and entry 100 give a LONG prediction
with confidence 0.70, take profit 103 and stop loss 98. -/
theorem predictTrendReversal_spec_w :
    (25:ℚ) < 30 ∧
    predictTrendReversal (some 25) 100 =
      some { direction := Direction.long
             confidence := 7/10
             entryPrice := 100
             takeProfit := 103
             stopLoss := 98
             modelName := "trend_reversal" } := by
  refine ⟨by norm_num, ?_⟩
  have h := (predictTrendReversal_spec 25 100).1 (by norm_num)
  rw [h]
  norm_num [min_def]

/-- C8: whenever the breakout model returns a prediction, the Bollinger band
width (upper − lower)/entry was below 0.03, the ADX was present and above
20, the confidence is min(0.72 + ADX/100, 0.95), the direction compares the
entry price against the ema_50 value with ema_medium as fallback, and the
profit targets are entry·1.05 / entry·0.96 for LONG and entry·0.95 /
entry·1.04 for SHORT. -/
theorem predictBreakout_spec (u l a e5 em : Option ℚ) (lp : ℚ) (p : Prediction)
    (h : predictBreakout u l a e5 em lp = some p) :
    (∃ uu ll, u = some uu ∧ l = some ll ∧ (uu - ll) / lp < 3/100) ∧
    (∃ aa, a = some aa ∧ aa > 20 ∧
        p.confidence = min (72/100 + aa/100) (95/100)) ∧
    (∃ e, e5.orElse (fun _ => em) = some e ∧
        p.direction = (if lp > e then Direction.long else Direction.short)) ∧
    (p.direction = Direction.long →
        p.takeProfit = lp * (105/100) ∧ p.stopLoss = lp * (96/100)) ∧
    (p.direction = Direction.short →
        p.takeProfit = lp * (95/100) ∧ p.stopLoss = lp * (104/100)) ∧
    p.entryPrice = lp ∧ p.modelName = "breakout" := by
  rcases u with _ | uu
  · simp [predictBreakout] at h
  rcases l with _ | ll
  · simp [predictBreakout] at h
  simp only [predictBreakout] at h
  split at h
  case isFalse hbw => exact Option.noConfusion h
  case isTrue hbw =>
  split at h
  case h_2 => exact Option.noConfusion h
  case h_1 aa =>
  split at h
  case isFalse ha => exact Option.noConfusion h
  case isTrue ha =>
  split at h
  case h_2 he => exact Option.noConfusion h
  case h_1 e he =>
  by_cases hd : lp > e
  · rw [if_pos hd] at h
    rw [if_pos rfl, Option.some.injEq] at h
    subst h
    refine ⟨⟨uu, ll, rfl, rfl, hbw⟩, ⟨aa, rfl, ha, rfl⟩,
      ⟨e, he, by simp [hd]⟩, fun _ => ⟨rfl, rfl⟩, ?_, rfl, rfl⟩
    intro hcontra
    simp at hcontra
  · rw [if_neg hd] at h
    have hne : Direction.short ≠ Direction.long := by decide
    rw [if_neg hne, Option.some.injEq] at h
    subst h
    refine ⟨⟨uu, ll, rfl, rfl, hbw⟩, ⟨aa, rfl, ha, rfl⟩,
      ⟨e, he, by simp [hd]⟩, ?_, fun _ => ⟨rfl, rfl⟩, rfl, rfl⟩
    intro hcontra
    simp at hcontra

/-- Witness for C8, Scenario C: upper 101, lower 99, entry 100, ADX 30 and
ema_50 value 99 give a LONG breakout prediction with confidence 0.95, take
profit 105 and stop loss 96. -/
theorem predictBreakout_spec_w :
    predictBreakout (some 101) (some 99) (some 30) (some 99) none 100 =
      some scenarioC ∧
    ((∃ uu ll, (some (101:ℚ)) = some uu ∧ (some (99:ℚ)) = some ll ∧
        (uu - ll) / 100 < 3/100) ∧
     (∃ aa, (some (30:ℚ)) = some aa ∧ aa > 20 ∧
        scenarioC.confidence = min (72/100 + aa/100) (95/100)) ∧
     (∃ e, (Option.orElse (some (99:ℚ)) fun _ => none) = some e ∧
        scenarioC.direction =
          (if (100:ℚ) > e then Direction.long else Direction.short)) ∧
     (scenarioC.direction = Direction.long →
        scenarioC.takeProfit = 100 * (105/100) ∧
        scenarioC.stopLoss = 100 * (96/100)) ∧
     (scenarioC.direction = Direction.short →
        scenarioC.takeProfit = 100 * (95/100) ∧
        scenarioC.stopLoss = 100 * (104/100)) ∧
     scenarioC.entryPrice = 100 ∧ scenarioC.modelName = "breakout") := by
  have heq : predictBreakout (some 101) (some 99) (some 30) (some 99) none 100
      = some scenarioC := by
    norm_num [predictBreakout, scenarioC, min_def, Option.orElse]
  exact ⟨heq,
    predictBreakout_spec (some 101) (some 99) (some 30) (some 99) none 100
      scenarioC heq⟩

/-- C9: every prediction produced by any of the three models has a
confidence that is strictly positive and at most 0.95. -/
theorem prediction_confidence_bounds
    (rsi m s u l a e5 em : Option ℚ) (lp : ℚ) (p : Prediction)
    (h : predictTrendReversal rsi lp = some p ∨
         predictMomentum m s lp = some p ∨
         predictBreakout u l a e5 em lp = some p) :
    0 < p.confidence ∧ p.confidence ≤ 95/100 := by
  have bounds : ∀ c : ℚ, 0 < c →
      0 < min c (95/100) ∧ min c (95/100) ≤ 95/100 := by
    intro c hc
    constructor
    · apply lt_min hc
      norm_num
    · exact min_le_right _ _
  rcases h with h | h | h
  · rcases rsi with _ | r
    · simp [predictTrendReversal] at h
    simp only [predictTrendReversal] at h
    by_cases h30 : r < 30
    · rw [if_pos h30, Option.some.injEq] at h
      subst h
      exact bounds _ (by linarith)
    rw [if_neg h30] at h
    by_cases h70 : r > 70
    · rw [if_pos h70, Option.some.injEq] at h
      subst h
      exact bounds _ (by linarith)
    · rw [if_neg h70] at h; exact Option.noConfusion h
  · rcases m with _ | mv
    · simp [predictMomentum] at h
    rcases s with _ | sv
    · simp [predictMomentum] at h
    simp only [predictMomentum] at h
    by_cases hgt : mv > sv
    · rw [if_pos hgt, Option.some.injEq] at h
      subst h
      refine bounds _ ?_
      have habs : (0:ℚ) ≤ |mv - sv| / 10 := by positivity
      linarith
    rw [if_neg hgt] at h
    by_cases hlt : mv < sv
    · rw [if_pos hlt, Option.some.injEq] at h
      subst h
      refine bounds _ ?_
      have habs : (0:ℚ) ≤ |mv - sv| / 10 := by positivity
      linarith
    · rw [if_neg hlt] at h; exact Option.noConfusion h
  · rcases u with _ | uu
    · simp [predictBreakout] at h
    rcases l with _ | ll
    · simp [predictBreakout] at h
    simp only [predictBreakout] at h
    split at h
    case isFalse hbw => exact Option.noConfusion h
    case isTrue hbw =>
    split at h
    case h_2 => exact Option.noConfusion h
    case h_1 aa =>
    split at h
    case isFalse ha => exact Option.noConfusion h
    case isTrue ha =>
    split at h
    case h_2 he => exact Option.noConfusion h
    case h_1 e he =>
    by_cases hd : lp > e
    · rw [if_pos hd] at h
      rw [if_pos rfl, Option.some.injEq] at h
      subst h
      exact bounds _ (by linarith)
    · rw [if_neg hd] at h
      have hne : Direction.short ≠ Direction.long := by decide
      rw [if_neg hne, Option.some.injEq] at h
      subst h
      exact bounds _ (by linarith)

/-- Witness for C9 at the Scenario A trend_reversal prediction. -/
theorem prediction_confidence_bounds_w :
    0 < (Prediction.confidence
          { direction := Direction.long
            confidence := 7/10
            entryPrice := 100
            takeProfit := 103
            stopLoss := 98
            modelName := "trend_reversal" }) ∧
    (Prediction.confidence
          { direction := Direction.long
            confidence := 7/10
            entryPrice := 100
            takeProfit := 103
            stopLoss := 98
            modelName := "trend_reversal" }) ≤ 95/100 :=
  prediction_confidence_bounds (some 25) none none none none none none none
    100 _ (Or.inl (by norm_num [predictTrendReversal, min_def]))

/-! Keyed state

Python dictionaries and database tables keyed by symbol are modelled as
association lists with unique keys; `aget` is lookup and `aset` is
insert-or-replace, preserving the position of an existing key. -/

def aget {α : Type} : List (String × α) → String → Option α
  | [], _ => none
  | (k2, v) :: t, k => if k2 = k then some v else aget t k

def aset {α : Type} : List (String × α) → String → α → List (String × α)
  | [], k, v => [(k, v)]
  | (k2, v2) :: t, k, v =>
      if k2 = k then (k, v) :: t else (k2, v2) :: aset t k v

theorem aget_aset_self {α : Type} (l : List (String × α)) (k : String) (v : α) :
    aget (aset l k v) k = some v := by
  induction l with
  | nil => simp [aget, aset]
  | cons p t ih =>
    obtain ⟨k2, v2⟩ := p
    by_cases hk : k2 = k <;> simp [aget, aset, hk, ih]

theorem aget_aset_ne {α : Type} (l : List (String × α)) (k k2 : String) (v : α)
    (h : k2 ≠ k) : aget (aset l k v) k2 = aget l k2 := by
  have hk2 : ¬ k = k2 := fun hh => h hh.symm
  induction l with
  | nil => simp [aget, aset, hk2]
  | cons p t ih =>
    obtain ⟨k3, v3⟩ := p
    by_cases hk3 : k3 = k
    · subst hk3
      simp [aget, aset, hk2]
    · simp [aget, aset, hk3, ih]

/-! Signal throttle

Two throttle implementations exist in the source. The first is
SignalGenerator._increment_signal_count over the signal_counts table keyed
by (symbol, date); the state below is the set of rows for the current day.
The second is PositionTracker.increment_signal_count over the in-memory
signal_limits dictionary. -/

/-- A row of the signal_counts table for the current day (SignalGenerator).
A maxCount of 0 stands for a falsy stored max_count, which the source
replaces by 3 via `max_count or 3`. -/
structure SGEntry where
  count : ℕ
  maxCount : ℕ
deriving DecidableEq, Repr

/-- SignalGenerator._increment_signal_count for a fixed day: looks up the
row for the symbol; if present and count < max_count it writes count + 1
and returns true, if present and at the cap it writes nothing and returns
false; if absent it inserts a row with count 1 and max_count 3 and returns
true. -/
def sgIncrement (st : List (String × SGEntry)) (sym : String) :
    List (String × SGEntry) × Bool :=
  (aget st sym).elim
    (aset st sym { count := 1, maxCount := 3 }, true)
    (fun e =>
      let m := if e.maxCount = 0 then 3 else e.maxCount
      if e.count < m then
        (aset st sym { count := e.count + 1, maxCount := e.maxCount }, true)
      else
        (st, false))

/-- Running a sequence of same-day increment calls from an empty table. -/
def sgRun (syms : List String) : List (String × SGEntry) :=
  syms.foldl (fun st s => (sgIncrement st s).1) []

/-- A row of the PositionTracker signal_limits dictionary. -/
structure PTEntry where
  limitValue : ℕ
  count : ℕ
  lastReset : ℚ
deriving DecidableEq, Repr

/-- PositionTracker._reset_old_signal_counts: zero every counter whose last
reset is at least 24 hours (86400 seconds) old. -/
def ptResetOld (now : ℚ) (st : List (String × PTEntry)) :
    List (String × PTEntry) :=
  st.map (fun p =>
    (p.1, if 86400 ≤ now - p.2.lastReset
          then { p.2 with count := 0, lastReset := now }
          else p.2))

/-- PositionTracker.update_signal_limit: set the limit of an existing row,
or create a row with the limit, count 0 and the current time. -/
def ptUpdateSignalLimit (now : ℚ) (st : List (String × PTEntry))
    (sym : String) (lim : ℕ) : List (String × PTEntry) :=
  (aget st sym).elim
    (aset st sym { limitValue := lim, count := 0, lastReset := now })
    (fun e => aset st sym { e with limitValue := lim })

/-- PositionTracker.increment_signal_count: reset stale counters, default
the row to limit 5 / count 0 when absent, then increment the count
unconditionally and return whether the new count is within the limit. -/
def ptIncrement (now : ℚ) (st : List (String × PTEntry)) (sym : String) :
    List (String × PTEntry) × Bool :=
  let st1 := ptResetOld now st
  let e := (aget st1 sym).getD { limitValue := 5, count := 0, lastReset := now }
  let c := e.count + 1
  (aset st1 sym { e with count := c }, decide (c ≤ e.limitValue))

theorem sgIncrement_of_none {st : List (String × SGEntry)} {sym : String}
    (h : aget st sym = none) :
    sgIncrement st sym = (aset st sym { count := 1, maxCount := 3 }, true) := by
  unfold sgIncrement
  rw [h]
  rfl

theorem sgIncrement_of_some {st : List (String × SGEntry)} {sym : String}
    {e : SGEntry} (h : aget st sym = some e) :
    sgIncrement st sym =
      (if e.count < (if e.maxCount = 0 then 3 else e.maxCount) then
        (aset st sym { count := e.count + 1, maxCount := e.maxCount }, true)
      else (st, false)) := by
  unfold sgIncrement
  rw [h]
  rfl

/-- The per-row bound maintained by the SignalGenerator throttle. -/
def sgInv (st : List (String × SGEntry)) : Prop :=
  ∀ sym e, aget st sym = some e →
    e.count ≤ (if e.maxCount = 0 then 3 else e.maxCount)

theorem sgInv_step (st : List (String × SGEntry)) (sym : String)
    (h : sgInv st) : sgInv (sgIncrement st sym).1 := by
  rcases hget : aget st sym with _ | e
  · rw [sgIncrement_of_none hget]
    intro s e2 hs
    by_cases hsym : s = sym
    · subst hsym
      rw [aget_aset_self] at hs
      cases hs
      norm_num
    · rw [aget_aset_ne _ _ _ _ hsym] at hs
      exact h s e2 hs
  · rw [sgIncrement_of_some hget]
    by_cases hlt : e.count < (if e.maxCount = 0 then 3 else e.maxCount)
    · rw [if_pos hlt]
      intro s e2 hs
      by_cases hsym : s = sym
      · subst hsym
        rw [aget_aset_self] at hs
        cases hs
        simpa using hlt
      · rw [aget_aset_ne _ _ _ _ hsym] at hs
        exact h s e2 hs
    · rw [if_neg hlt]
      exact h

theorem sgInv_foldl (syms : List String) (st : List (String × SGEntry))
    (h : sgInv st) :
    sgInv (syms.foldl (fun st s => (sgIncrement st s).1) st) := by
  induction syms generalizing st with
  | nil => exact h
  | cons s t ih => exact ih _ (sgInv_step st s h)

/-- C2 counterexample: with the PositionTracker throttle at limit 3, four
same-day increment calls for "X" leave a stored count of 4 — the increment
is recorded even though the count was not under the cap, and the stored
count exceeds max_count, contradicting the claim. The fourth call does
return false. -/
theorem ptIncrement_exceeds_cap :
    (ptIncrement 0 (ptIncrement 0 (ptIncrement 0 (ptIncrement 0
        (ptUpdateSignalLimit 0 [] "X" 3) "X").1 "X").1 "X").1 "X").2 = false ∧
    aget (ptIncrement 0 (ptIncrement 0 (ptIncrement 0 (ptIncrement 0
        (ptUpdateSignalLimit 0 [] "X" 3) "X").1 "X").1 "X").1 "X").1 "X" =
      some { limitValue := 3, count := 4, lastReset := 0 } ∧
    (3:ℕ) < 4 := by
  with_unfolding_all decide

/-- C2 amended: the SignalGenerator throttle checks before it increments —
it returns true and records the increment exactly when the stored count is
strictly under the (effective) max_count, so its stored count never exceeds
max_count after any sequence of increment calls, and the 4th same-day
increment for a symbol returns false with max_count 3. The PositionTracker
throttle instead always records the increment, returning whether the new
count is within the limit, so its stored count can exceed the limit. -/
theorem throttle_amended :
    (∀ syms sym e, aget (sgRun syms) sym = some e →
        e.count ≤ (if e.maxCount = 0 then 3 else e.maxCount)) ∧
    (∀ st sym, ((sgIncrement st sym).2 = true ↔
        (∀ e, aget st sym = some e →
          e.count < (if e.maxCount = 0 then 3 else e.maxCount))) ∧
      ((sgIncrement st sym).2 = false → (sgIncrement st sym).1 = st)) ∧
    ((sgIncrement (sgRun ["X", "X", "X"]) "X").2 = false) ∧
    (∀ now st sym, ∃ e,
        aget (ptIncrement now st sym).1 sym = some e ∧
        e.count = ((aget (ptResetOld now st) sym).getD
          { limitValue := 5, count := 0, lastReset := now }).count + 1 ∧
        ((ptIncrement now st sym).2 = true ↔ e.count ≤ e.limitValue)) := by
  refine ⟨?_, ?_, by decide, ?_⟩
  · intro syms
    apply sgInv_foldl
    intro sym e h
    simp [aget] at h
  · intro st sym
    rcases hget : aget st sym with _ | e
    · rw [sgIncrement_of_none hget]
      constructor
      · simp [hget]
      · simp
    · rw [sgIncrement_of_some hget]
      by_cases hlt : e.count < (if e.maxCount = 0 then 3 else e.maxCount)
      · rw [if_pos hlt]
        constructor
        · simp only [true_iff]
          intro e2 h2
          cases h2
          exact hlt
        · simp
      · rw [if_neg hlt]
        constructor
        · simp only [Bool.false_eq_true, false_iff, not_forall]
          exact ⟨e, rfl, hlt⟩
        · intro _
          rfl
  · intro now st sym
    simp only [ptIncrement]
    exact ⟨_, aget_aset_self _ _ _, rfl, by simp⟩

/-- Witness for C2 amended: a single increment from an empty table stores
count 1, within the cap. -/
theorem throttle_amended_w :
    aget (sgRun ["X"]) "X" = some { count := 1, maxCount := 3 } ∧
    (1:ℕ) ≤ (if (3:ℕ) = 0 then 3 else 3) :=
  ⟨by decide,
   throttle_amended.1 ["X"] "X" { count := 1, maxCount := 3 } (by decide)⟩

/-! Position lifecycle manager (PositionTracker) -/

/-- An in-memory active position of PositionTracker. The confirmed flag is
false for PENDING positions and true for CONFIRMED ones; CLOSED positions
are removed from the active dictionary. The entry time is an abstract
timestamp. -/
structure Position where
  id : ℕ
  direction : Direction
  entryPrice : ℚ
  entryTime : ℚ
  signalId : ℕ
  confirmed : Bool
deriving DecidableEq, Repr

/-- PositionTracker state: the active_positions dictionary plus the next
database row id (sqlite lastrowid, starting at 1). -/
structure TrackerState where
  active : List (String × Position)
  nextId : ℕ
deriving DecidableEq, Repr

/-- PositionTracker.add_position: inserts a row (returning its id) and
overwrites any in-memory entry for the symbol with the new unconfirmed
position. The database write is modelled as succeeding; the exception path
returning no id is not reachable in that model. -/
def addPosition (st : TrackerState) (sym : String) (price : ℚ)
    (dir : Direction) (signalId : ℕ) (now : ℚ) : Option ℕ × TrackerState :=
  let pid := st.nextId
  (some pid,
   { active := aset st.active sym
       { id := pid, direction := dir, entryPrice := price, entryTime := now,
         signalId := signalId, confirmed := false }
     nextId := st.nextId + 1 })

/-- The profit/loss percentage computed by PositionTracker for a position at
the current price. -/
def profitPct (pos : Position) (currentPrice : ℚ) : ℚ :=
  match pos.direction with
  | Direction.long => (currentPrice - pos.entryPrice) / pos.entryPrice * 100
  | Direction.short => (pos.entryPrice - currentPrice) / pos.entryPrice * 100

/-- The exit reason of PositionTracker.check_exit_conditions; the formatted
reason strings of the source are modelled as tags carrying the interpolated
value. -/
inductive ExitReason where
  | takeProfit (pct : ℚ)
  | stopLoss (pct : ℚ)
  | rsiOverbought (rsi : ℚ)
  | rsiOversold (rsi : ℚ)
deriving DecidableEq, Repr

/-- The dictionary returned by PositionTracker.check_exit_conditions. -/
structure ExitRecommendation where
  positionId : ℕ
  symbol : String
  exitPrice : ℚ
  profitPct : ℚ
  reason : ExitReason
deriving DecidableEq, Repr

/-- The RSI branch of check_exit_conditions: it applies only when the
indicators argument is truthy and contains an rsi key, which the rsi
parameter models directly (none when indicators are absent or lack the
key). -/
def rsiExitReason (dir : Direction) (rsi : Option ℚ) : Option ExitReason :=
  match rsi with
  | some r =>
      if dir = Direction.long ∧ 75 < r then some (ExitReason.rsiOverbought r)
      else if dir = Direction.short ∧ r < 25 then some (ExitReason.rsiOversold r)
      else none
  | none => none

/-- PositionTracker.check_exit_conditions: no recommendation for symbols
without an active position or with an unconfirmed one; otherwise the first
matching trigger of take-profit at +10%, stop-loss at −5%, then the RSI
conditions, produces the recommendation. -/
def checkExitConditions (st : TrackerState) (sym : String) (currentPrice : ℚ)
    (rsi : Option ℚ) : Option ExitRecommendation :=
  (aget st.active sym).bind (fun pos =>
    if pos.confirmed = false then none
    else
      let pct := profitPct pos currentPrice
      (if 10 ≤ pct then some (ExitReason.takeProfit pct)
       else if pct ≤ -5 then some (ExitReason.stopLoss pct)
       else rsiExitReason pos.direction rsi).map
        (fun reason =>
          { positionId := pos.id, symbol := sym, exitPrice := currentPrice,
            profitPct := pct, reason := reason }))

/-- The tracker state after the first create of Scenario E: position 1,
LONG at 100 for "X", still PENDING. -/
def trackerAfterFirst : TrackerState :=
  (addPosition { active := [], nextId := 1 } "X" 100 Direction.long 1 0).2

/-- C3 counterexample, Scenario E: the first create for "X" succeeds with id
1; the second create for "X" before any close also succeeds — it returns id
2 and replaces the in-memory position — instead of failing with a
position-already-open condition. -/
theorem addPosition_never_rejects_cx :
    (addPosition { active := [], nextId := 1 } "X" 100 Direction.long 1 0).1 =
      some 1 ∧
    aget trackerAfterFirst.active "X" ≠ none ∧
    (addPosition trackerAfterFirst "X" 99 Direction.short 2 0).1 = some 2 ∧
    aget (addPosition trackerAfterFirst "X" 99 Direction.short 2 0).2.active
        "X" =
      some { id := 2, direction := Direction.short, entryPrice := 99,
             entryTime := 0, signalId := 2, confirmed := false } := by
  with_unfolding_all decide

/-- C3 amended: add_position performs no open-position check. Even for a
symbol that already has a non-CLOSED position it succeeds, returning the
fresh row id and overwriting the in-memory entry with the new unconfirmed
position; duplicate prevention exists only in the caller
(SignalGenerator.generate_signals checks has_active_position before
calling). -/
theorem addPosition_amended (st : TrackerState) (sym : String) (q : ℚ)
    (d : Direction) (sid : ℕ) (t : ℚ)
    (_h : aget st.active sym ≠ none) :
    (addPosition st sym q d sid t).1 = some st.nextId ∧
    aget (addPosition st sym q d sid t).2.active sym =
      some { id := st.nextId, direction := d, entryPrice := q, entryTime := t,
             signalId := sid, confirmed := false } ∧
    (addPosition st sym q d sid t).2.nextId = st.nextId + 1 := by
  refine ⟨rfl, ?_, rfl⟩
  simp only [addPosition]
  exact aget_aset_self _ _ _

/-- Witness for C3 amended at the state holding the Scenario E position. -/
theorem addPosition_amended_w :
    aget trackerAfterFirst.active "X" ≠ none ∧
    ((addPosition trackerAfterFirst "X" 99 Direction.short 2 0).1 =
        some trackerAfterFirst.nextId ∧
     aget (addPosition trackerAfterFirst "X" 99 Direction.short 2 0).2.active
         "X" =
       some { id := trackerAfterFirst.nextId, direction := Direction.short,
              entryPrice := 99, entryTime := 0, signalId := 2,
              confirmed := false } ∧
     (addPosition trackerAfterFirst "X" 99 Direction.short 2 0).2.nextId =
       trackerAfterFirst.nextId + 1) :=
  ⟨by with_unfolding_all decide,
   addPosition_amended trackerAfterFirst "X" 99 Direction.short 2 0
     (by with_unfolding_all decide)⟩

/-- C5: check_exit_conditions returns nothing for an unconfirmed (PENDING)
position; for a confirmed position the triggers are evaluated in order with
the first match winning: take-profit at profit ≥ 10%, then stop-loss at
profit ≤ −5%, then the RSI conditions (LONG with RSI > 75, SHORT with
RSI < 25) when an RSI value is present, else no recommendation. The
characterization is stated for a nonzero entry price; on a zero entry
price the source itself raises an uncaught ZeroDivisionError. -/
theorem checkExitConditions_spec (st : TrackerState) (sym : String)
    (price : ℚ) (rsi : Option ℚ) (pos : Position)
    (h : aget st.active sym = some pos) (_hep : pos.entryPrice ≠ 0) :
    (pos.confirmed = false → checkExitConditions st sym price rsi = none) ∧
    (pos.confirmed = true →
      ((10 ≤ profitPct pos price →
          checkExitConditions st sym price rsi =
            some { positionId := pos.id, symbol := sym, exitPrice := price,
                   profitPct := profitPct pos price,
                   reason := ExitReason.takeProfit (profitPct pos price) }) ∧
       (¬ 10 ≤ profitPct pos price → profitPct pos price ≤ -5 →
          checkExitConditions st sym price rsi =
            some { positionId := pos.id, symbol := sym, exitPrice := price,
                   profitPct := profitPct pos price,
                   reason := ExitReason.stopLoss (profitPct pos price) }) ∧
       (¬ 10 ≤ profitPct pos price → ¬ profitPct pos price ≤ -5 →
          checkExitConditions st sym price rsi =
            (rsiExitReason pos.direction rsi).map (fun reason =>
              { positionId := pos.id, symbol := sym, exitPrice := price,
                profitPct := profitPct pos price, reason := reason })) ∧
       (∀ r, rsi = some r →
          rsiExitReason pos.direction rsi =
            (if pos.direction = Direction.long ∧ 75 < r then
              some (ExitReason.rsiOverbought r)
             else if pos.direction = Direction.short ∧ r < 25 then
              some (ExitReason.rsiOversold r)
             else none)) ∧
       (rsi = none → rsiExitReason pos.direction rsi = none))) := by
  constructor
  · intro hc
    simp [checkExitConditions, h, hc]
  · intro hc
    refine ⟨?_, ?_, ?_, ?_, ?_⟩
    · intro htp
      simp [checkExitConditions, h, hc, htp]
    · intro htp hsl
      simp [checkExitConditions, h, hc, htp, hsl]
    · intro htp hsl
      simp [checkExitConditions, h, hc, htp, hsl]
    · intro r hr
      simp [rsiExitReason, hr]
    · intro hr
      simp [rsiExitReason, hr]

/-- The confirmed Scenario-like position used to instantiate C5. -/
def posC : Position :=
  { id := 1, direction := Direction.long, entryPrice := 100, entryTime := 0,
    signalId := 1, confirmed := true }

/-- The tracker state holding the confirmed position for "X". -/
def stC : TrackerState :=
  { active := [("X", posC)], nextId := 2 }

/-- Witness for C5: a confirmed LONG position entered at 100, evaluated at
price 120 (profit 20%), yields the take-profit recommendation. -/
theorem checkExitConditions_spec_w :
    checkExitConditions stC "X" 120 none =
      some { positionId := 1, symbol := "X", exitPrice := 120,
             profitPct := 20, reason := ExitReason.takeProfit 20 } := by
  have h := ((checkExitConditions_spec stC "X" 120 none posC
      (by with_unfolding_all decide) (by with_unfolding_all decide)).2 rfl).1
      (by with_unfolding_all decide)
  rw [h]
  with_unfolding_all decide

/-! Signal generation orchestration (SignalGenerator.generate_signals)

The collaborators of generate_signals are modelled as oracles giving the
result of each external call; they are stateless across loop iterations,
which is enough because the theorem below shows the loop body never reaches
the stateful calls. The attribute self.min_confidence is an optional value:
none models the attribute never being assigned, in which case reading it
raises AttributeError, modelled through the error side of Except and caught
by the surrounding handler that returns the empty list. -/

/-- The SignalGenerator object together with the behavior of its
collaborators during one generate_signals call for a fixed symbol. -/
structure GSEnv (τ σ : Type) where
  componentsOk : Bool
  canGenerate : Bool
  hasKlines : τ → Bool
  calcIndicators : τ → Option σ
  predict : τ → σ → Option Prediction
  minConfidence : Option ℚ
  saveSignal : τ → Prediction → Option ℕ
  hasPositionsComp : Bool
  hasActivePosition : Bool
  incrementOk : Bool
  addPositionResult : Option ℕ

/-- A signal appended to the returned list: its timeframe, the prediction it
came from and the database row id. -/
structure Signal (τ : Type) where
  timeframe : τ
  prediction : Prediction
  id : ℕ

/-- External writes performed during the call: ids of saved signal rows and
ids of created positions. -/
structure GSEffects where
  saved : List ℕ
  created : List ℕ

/-- The per-timeframe loop of generate_signals. A prediction that is present
forces the read of self.min_confidence; the direction of a model prediction
is LONG or SHORT, never NONE, so only the confidence > 70 comparison gates
the position-tracking block, whose branches all end the iteration without
touching the returned list. -/
def gsLoop {τ σ : Type} (env : GSEnv τ σ) :
    List τ → List (Signal τ) → GSEffects →
    Except GSEffects (List (Signal τ) × GSEffects)
  | [], acc, eff => Except.ok (acc, eff)
  | tf :: rest, acc, eff =>
    if env.hasKlines tf = false then gsLoop env rest acc eff
    else
      (env.calcIndicators tf).elim (gsLoop env rest acc eff) (fun ind =>
        (env.predict tf ind).elim (gsLoop env rest acc eff) (fun p =>
          env.minConfidence.elim (Except.error eff) (fun mc =>
            if mc ≤ p.confidence then
              (env.saveSignal tf p).elim (gsLoop env rest acc eff)
                (fun sid =>
                  let acc2 := acc ++ [{ timeframe := tf, prediction := p,
                                        id := sid }]
                  let eff2 := { eff with saved := eff.saved ++ [sid] }
                  if p.confidence > 70 then
                    if env.hasPositionsComp then
                      if env.hasActivePosition then gsLoop env rest acc2 eff2
                      else if env.incrementOk = false then
                        gsLoop env rest acc2 eff2
                      else
                        env.addPositionResult.elim (gsLoop env rest acc2 eff2)
                          (fun pid =>
                            gsLoop env rest acc2
                              { eff2 with created := eff2.created ++ [pid] })
                    else gsLoop env rest acc2 eff2
                  else gsLoop env rest acc2 eff2)
            else gsLoop env rest acc eff)))

/-- SignalGenerator.generate_signals: missing components or a throttled
symbol give the empty list; otherwise the loop runs under the exception
handler, which turns an AttributeError into the empty list while external
writes already performed stand. -/
def generateSignals {τ σ : Type} (env : GSEnv τ σ) (tfs : List τ) :
    List (Signal τ) × GSEffects :=
  if env.componentsOk = false then ([], ⟨[], []⟩)
  else if env.canGenerate = false then ([], ⟨[], []⟩)
  else
    match gsLoop env tfs [] ⟨[], []⟩ with
    | Except.ok r => r
    | Except.error eff => ([], eff)

theorem gsLoop_no_min_confidence {τ σ : Type} (env : GSEnv τ σ)
    (hmc : env.minConfidence = none) :
    ∀ tfs acc eff, gsLoop env tfs acc eff = Except.ok (acc, eff) ∨
      gsLoop env tfs acc eff = Except.error eff := by
  intro tfs
  induction tfs with
  | nil => intro acc eff; left; rfl
  | cons tf rest ih =>
    intro acc eff
    by_cases hk : env.hasKlines tf = false
    · have hstep : gsLoop env (tf :: rest) acc eff =
          gsLoop env rest acc eff := by
        simp [gsLoop, hk]
      rw [hstep]
      exact ih acc eff
    rcases hci : env.calcIndicators tf with _ | ind
    · have hstep : gsLoop env (tf :: rest) acc eff =
          gsLoop env rest acc eff := by
        simp [gsLoop, hk, hci]
      rw [hstep]
      exact ih acc eff
    rcases hp : env.predict tf ind with _ | p
    · have hstep : gsLoop env (tf :: rest) acc eff =
          gsLoop env rest acc eff := by
        simp [gsLoop, hk, hci, hp]
      rw [hstep]
      exact ih acc eff
    · have hstep : gsLoop env (tf :: rest) acc eff = Except.error eff := by
        simp [gsLoop, hk, hci, hp, hmc]
      rw [hstep]
      exact Or.inr rfl

/-- C4: with the min_confidence attribute never assigned, generate_signals
returns the empty list for every input, saves no signal and creates no
position: the first present prediction raises AttributeError at the
confidence comparison, which the handler turns into the empty list, and
when no prediction is present nothing is appended either. -/
theorem generateSignals_always_empty {τ σ : Type} (env : GSEnv τ σ)
    (tfs : List τ) (hmc : env.minConfidence = none) :
    generateSignals env tfs = ([], ⟨[], []⟩) := by
  unfold generateSignals
  by_cases hco : env.componentsOk = false
  · rw [if_pos hco]
  rw [if_neg hco]
  by_cases hcg : env.canGenerate = false
  · rw [if_pos hcg]
  rw [if_neg hcg]
  rcases gsLoop_no_min_confidence env hmc tfs [] ⟨[], []⟩ with h | h <;> rw [h]

/-- A concrete environment whose predictor always produces a prediction and
whose collaborators would all succeed, with min_confidence unassigned. -/
def envC4 : GSEnv String Unit :=
  { componentsOk := true
    canGenerate := true
    hasKlines := fun _ => true
    calcIndicators := fun _ => some ()
    predict := fun _ _ =>
      some { direction := Direction.long, confidence := 9/10,
             entryPrice := 100, takeProfit := 103, stopLoss := 98,
             modelName := "trend_reversal" }
    minConfidence := none
    saveSignal := fun _ _ => some 1
    hasPositionsComp := true
    hasActivePosition := false
    incrementOk := true
    addPositionResult := some 1 }

/-- Witness for C4: even with a willing predictor and collaborators, the
call returns no signals and performs no writes. -/
theorem generateSignals_always_empty_w :
    envC4.minConfidence = none ∧
    generateSignals envC4 ["1h"] = ([], ⟨[], []⟩) :=
  ⟨rfl, generateSignals_always_empty envC4 ["1h"] rfl⟩

/-! Indicator engine (TechnicalIndicators)

The kline rows returned by the market-data query are the candle list; each
computed DataFrame column becomes a function from the row index to a value,
with `FV.nan` playing the role of the NaN entries the numeric library
produces (undefined rolling windows, 0/0) and infinities arising from
division of a nonzero value by zero. Rolling aggregations use the default
minimum of one full window of defined values. -/

structure Candle where
  openTime : ℤ
  openPrice : ℚ
  highPrice : ℚ
  lowPrice : ℚ
  closePrice : ℚ
  volume : ℚ
  timestamp : ℤ
deriving DecidableEq, Repr

def dfltCandle : Candle :=
  { openTime := 0, openPrice := 0, highPrice := 0, lowPrice := 0,
    closePrice := 0, volume := 0, timestamp := 0 }

def closeAt (cs : List Candle) (i : ℕ) : ℚ := (cs.getD i dfltCandle).closePrice

def highAt (cs : List Candle) (i : ℕ) : ℚ := (cs.getD i dfltCandle).highPrice

def lowAt (cs : List Candle) (i : ℕ) : ℚ := (cs.getD i dfltCandle).lowPrice

def volumeAt (cs : List Candle) (i : ℕ) : ℚ := (cs.getD i dfltCandle).volume

/-- close_price.diff(): undefined at row 0. -/
def deltaAt (cs : List Candle) (i : ℕ) : FV :=
  if i = 0 then FV.nan else FV.num (closeAt cs i - closeAt cs (i - 1))

/-- gain = delta.mask(delta < 0, 0): negative deltas become 0, NaN stays. -/
def gainAt (cs : List Candle) (i : ℕ) : FV :=
  match deltaAt cs i with
  | FV.num d => FV.num (if d < 0 then 0 else d)
  | _ => FV.nan

/-- loss = -delta.mask(delta > 0, 0): positive deltas become 0, then the
series is negated; NaN stays. -/
def lossAt (cs : List Candle) (i : ℕ) : FV :=
  match deltaAt cs i with
  | FV.num d => FV.num (-(if d > 0 then 0 else d))
  | _ => FV.nan

/-- rolling(window := p).mean(): defined once the trailing window holds p
defined values, NaN before that or when the window contains a NaN. -/
def rollingMeanAt (p : ℕ) (f : ℕ → FV) (i : ℕ) : FV :=
  if i + 1 < p then FV.nan
  else if ((List.range p).map (fun k => f (i + 1 - p + k))).all
      (fun v => v.isNum) then
    FV.num (((((List.range p).map (fun k => f (i + 1 - p + k))).map
      FV.toQ).sum) / p)
  else FV.nan

/-- rolling(window := p).sum() with the same definedness rule. -/
def rollingSumAt (p : ℕ) (f : ℕ → FV) (i : ℕ) : FV :=
  if i + 1 < p then FV.nan
  else if ((List.range p).map (fun k => f (i + 1 - p + k))).all
      (fun v => v.isNum) then
    FV.num ((((List.range p).map (fun k => f (i + 1 - p + k))).map
      FV.toQ).sum)
  else FV.nan

def avgGainAt (cs : List Candle) (i : ℕ) : FV := rollingMeanAt 14 (gainAt cs) i

def avgLossAt (cs : List Candle) (i : ℕ) : FV := rollingMeanAt 14 (lossAt cs) i

/-- RS = avg_gain / avg_loss with IEEE semantics for the zero denominator. -/
def rsAt (cs : List Candle) (i : ℕ) : FV :=
  FV.div (avgGainAt cs i) (avgLossAt cs i)

/-- RSI = 100 − 100/(1 + RS). -/
def rsiAt (cs : List Candle) (i : ℕ) : FV :=
  FV.sub (FV.num 100) (FV.div (FV.num 100) (FV.add (FV.num 1) (rsAt cs i)))

/-- ewm(span := s, adjust := False).mean() is exponential smoothing with
alpha = 2/(s+1); `ewma` takes alpha directly. -/
def ewmaAux (a : ℚ) (prev : ℚ) : List ℚ → List ℚ
  | [] => []
  | x :: xs =>
      let y := (1 - a) * prev + a * x
      y :: ewmaAux a y xs

def ewma (a : ℚ) : List ℚ → List ℚ
  | [] => []
  | x :: xs => x :: ewmaAux a x xs

def closes (cs : List Candle) : List ℚ := cs.map Candle.closePrice

def qAt (l : List ℚ) (i : ℕ) : ℚ := l.getD i 0

/-- MACD line: EMA(close, span 12) − EMA(close, span 26). -/
def macdLine (cs : List Candle) : List ℚ :=
  List.zipWith (fun a b => a - b) (ewma (2/13) (closes cs))
    (ewma (2/27) (closes cs))

/-- MACD signal line: EMA(MACD, span 9). -/
def macdSignalLine (cs : List Candle) : List ℚ := ewma (2/10) (macdLine cs)

/-- MACD histogram: MACD − signal. -/
def macdHistLine (cs : List Candle) : List ℚ :=
  List.zipWith (fun a b => a - b) (macdLine cs) (macdSignalLine cs)

def emaShortLine (cs : List Candle) : List ℚ := ewma (2/10) (closes cs)

def emaMediumLine (cs : List Candle) : List ℚ := ewma (2/22) (closes cs)

def emaLongLine (cs : List Candle) : List ℚ := ewma (2/51) (closes cs)

/-- Crossover of a faster over a slower EMA at a row: +1 when the faster
moves from strictly below to at-or-above between consecutive rows, −1 for
the mirror transition, 0 otherwise and at row 0. -/
def crossoverAt (fast slow : List ℚ) (i : ℕ) : ℤ :=
  if i = 0 then 0
  else if qAt fast (i-1) < qAt slow (i-1) ∧ qAt slow i ≤ qAt fast i then 1
  else if qAt slow (i-1) < qAt fast (i-1) ∧ qAt fast i ≤ qAt slow i then -1
  else 0

/-- True range; the row-wise max skips the undefined shifted entries of row
0, leaving |high − low| there. -/
def trAt (cs : List Candle) (i : ℕ) : ℚ :=
  if i = 0 then |highAt cs 0 - lowAt cs 0|
  else
    max |highAt cs i - lowAt cs i|
      (max |highAt cs i - closeAt cs (i-1)| |lowAt cs i - closeAt cs (i-1)|)

def dmPlusAt (cs : List Candle) (i : ℕ) : ℚ :=
  if i = 0 then 0
  else
    let hd := highAt cs i - highAt cs (i-1)
    let ld := lowAt cs (i-1) - lowAt cs i
    if hd > ld ∧ hd > 0 then hd else 0

def dmMinusAt (cs : List Candle) (i : ℕ) : ℚ :=
  if i = 0 then 0
  else
    let hd := highAt cs i - highAt cs (i-1)
    let ld := lowAt cs (i-1) - lowAt cs i
    if ld > hd ∧ ld > 0 then ld else 0

def smoothedTrAt (cs : List Candle) (i : ℕ) : FV :=
  rollingSumAt 7 (fun j => FV.num (trAt cs j)) i

def smoothedDmPlusAt (cs : List Candle) (i : ℕ) : FV :=
  rollingSumAt 7 (fun j => FV.num (dmPlusAt cs j)) i

def smoothedDmMinusAt (cs : List Candle) (i : ℕ) : FV :=
  rollingSumAt 7 (fun j => FV.num (dmMinusAt cs j)) i

def diPlusAt (cs : List Candle) (i : ℕ) : FV :=
  FV.div (FV.mul (FV.num 100) (smoothedDmPlusAt cs i)) (smoothedTrAt cs i)

def diMinusAt (cs : List Candle) (i : ℕ) : FV :=
  FV.div (FV.mul (FV.num 100) (smoothedDmMinusAt cs i)) (smoothedTrAt cs i)

def dxAt (cs : List Candle) (i : ℕ) : FV :=
  FV.div (FV.mul (FV.num 100) (FV.fabs (FV.sub (diPlusAt cs i) (diMinusAt cs i))))
    (FV.add (diPlusAt cs i) (diMinusAt cs i))

def adxAt (cs : List Candle) (i : ℕ) : FV := rollingMeanAt 7 (dxAt cs) i

/-- volume.pct_change(periods := 24) · 100. -/
def volumeChangeAt (cs : List Candle) (i : ℕ) : FV :=
  if i < 24 then FV.nan
  else FV.mul (FV.div (FV.num (volumeAt cs i - volumeAt cs (i-24)))
    (FV.num (volumeAt cs (i-24)))) (FV.num 100)

/-- close_price.pct_change(periods := 24) · 100. -/
def priceChangeAt (cs : List Candle) (i : ℕ) : FV :=
  if i < 24 then FV.nan
  else FV.mul (FV.div (FV.num (closeAt cs i - closeAt cs (i-24)))
    (FV.num (closeAt cs (i-24)))) (FV.num 100)

/-- The last row of the computed DataFrame, as returned by
calculate_indicators via df.tail(1).to_dict(...)[0]. -/
structure Snapshot where
  timestamp : ℤ
  rsi : FV
  macd : ℚ
  macdSignal : ℚ
  macdHistogram : ℚ
  emaShort : ℚ
  emaMedium : ℚ
  emaLong : ℚ
  emaCrossShortMedium : ℤ
  emaCrossMediumLong : ℤ
  adx : FV
  volumeChange24h : FV
  priceChange24h : FV
deriving DecidableEq, Repr

def computeSnapshot (cs : List Candle) : Option Snapshot :=
  match cs with
  | [] => none
  | _ :: _ =>
    let i := cs.length - 1
    some { timestamp := (cs.getD i dfltCandle).timestamp
           rsi := rsiAt cs i
           macd := qAt (macdLine cs) i
           macdSignal := qAt (macdSignalLine cs) i
           macdHistogram := qAt (macdHistLine cs) i
           emaShort := qAt (emaShortLine cs) i
           emaMedium := qAt (emaMediumLine cs) i
           emaLong := qAt (emaLongLine cs) i
           emaCrossShortMedium := crossoverAt (emaShortLine cs) (emaMediumLine cs) i
           emaCrossMediumLong := crossoverAt (emaMediumLine cs) (emaLongLine cs) i
           adx := adxAt cs i
           volumeChange24h := volumeChangeAt cs i
           priceChange24h := priceChangeAt cs i }

/-- TechnicalIndicators.calculate_indicators on the rows returned by the
kline query. The outer insufficient-data guard tests
len(result) < min_required, but its body returns None only when the result
is empty; otherwise control falls through to the full computation. Rows are
also stored (skipping those with NaN rsi or macd), which does not affect the
returned value; a limit of 0 empties df.tail(limit), making the final
records[0] raise, which the handler turns into None. -/
def calculateIndicators (cs : List Candle) (limit minRequired : ℕ) :
    Option Snapshot :=
  if cs.length < minRequired then
    if cs.length = 0 then none
    else if limit = 0 then none
    else computeSnapshot cs
  else if limit = 0 then none
  else computeSnapshot cs

/-- C1 (the code contradicts the claim): for any nonempty candle sequence
shorter than min_required = 50 and any positive limit, calculate_indicators
still computes and returns a snapshot of the partial data — the
insufficient-data guard only returns None for an empty result, and control
falls through for 0 < n < 50. -/
theorem calculateIndicators_short_input_snapshot (cs : List Candle) (limit : ℕ)
    (h0 : 0 < cs.length) (h50 : cs.length < 50) (hl : 0 < limit) :
    ∃ s, calculateIndicators cs limit 50 = some s := by
  unfold calculateIndicators
  rw [if_pos h50, if_neg (Nat.pos_iff_ne_zero.mp h0),
    if_neg (Nat.pos_iff_ne_zero.mp hl)]
  cases cs with
  | nil => exact absurd h0 (by simp)
  | cons c t => exact ⟨_, rfl⟩

/-- A flat one-valued candle. -/
def flatCandle : Candle :=
  { openTime := 0, openPrice := 1, highPrice := 1, lowPrice := 1,
    closePrice := 1, volume := 1, timestamp := 0 }

/-- Twenty candles: fewer than min_required = 50 but not empty. -/
def candles20 : List Candle := List.replicate 20 flatCandle

/-- Witness for C1 at the failing input of 20 candles. -/
theorem calculateIndicators_short_input_snapshot_w :
    0 < candles20.length ∧ candles20.length < 50 ∧ 0 < 100 ∧
    ∃ s, calculateIndicators candles20 100 50 = some s :=
  ⟨by decide, by decide, by decide,
   calculateIndicators_short_input_snapshot candles20 100 (by decide) (by decide)
     (by decide)⟩

/-- Fifteen flat candles: the RSI window fills at row 14 with every delta
zero. -/
def flatCandles : List Candle := List.replicate 15 flatCandle

/-- C10 counterexample: on a flat candle sequence the window at row 14 is
filled, both rolling averages are zero, and the RSI is NaN (0/0 feeds the
RS ratio), not a number in [0, 100]. -/
theorem rsi_nan_on_flat_window_cx :
    avgGainAt flatCandles 14 = FV.num 0 ∧
    avgLossAt flatCandles 14 = FV.num 0 ∧
    rsiAt flatCandles 14 = FV.nan := by
  with_unfolding_all decide

theorem gain_nonneg (cs : List Candle) (j : ℕ) (hj : j ≠ 0) :
    ∃ x, gainAt cs j = FV.num x ∧ 0 ≤ x := by
  refine ⟨if closeAt cs j - closeAt cs (j-1) < 0 then 0
          else closeAt cs j - closeAt cs (j-1), ?_, ?_⟩
  · unfold gainAt deltaAt
    rw [if_neg hj]
  · by_cases hd : closeAt cs j - closeAt cs (j-1) < 0
    · rw [if_pos hd]
    · rw [if_neg hd]
      exact not_lt.mp hd

theorem loss_nonneg (cs : List Candle) (j : ℕ) (hj : j ≠ 0) :
    ∃ x, lossAt cs j = FV.num x ∧ 0 ≤ x := by
  refine ⟨-(if 0 < closeAt cs j - closeAt cs (j-1) then 0
            else closeAt cs j - closeAt cs (j-1)), ?_, ?_⟩
  · unfold lossAt deltaAt
    rw [if_neg hj]
  · by_cases hd : 0 < closeAt cs j - closeAt cs (j-1)
    · rw [if_pos hd]
      norm_num
    · rw [if_neg hd]
      have := not_lt.mp hd
      linarith

theorem rollingMeanAt_num (p : ℕ) (f : ℕ → FV) (i : ℕ) (hp : ¬ i + 1 < p)
    (h : ∀ k, k < p → ∃ x, f (i + 1 - p + k) = FV.num x ∧ 0 ≤ x) :
    ∃ q, rollingMeanAt p f i = FV.num q ∧ 0 ≤ q := by
  unfold rollingMeanAt
  rw [if_neg hp]
  have hall : ((List.range p).map (fun k => f (i + 1 - p + k))).all
      (fun v => v.isNum) = true := by
    rw [List.all_eq_true]
    intro v hv
    obtain ⟨k, hk, rfl⟩ := List.mem_map.mp hv
    obtain ⟨x, hx, -⟩ := h k (List.mem_range.mp hk)
    simp [hx, FV.isNum]
  rw [if_pos hall]
  refine ⟨_, rfl, ?_⟩
  apply div_nonneg
  · apply List.sum_nonneg
    intro x hx
    simp only [List.map_map, List.mem_map, List.mem_range,
      Function.comp] at hx
    obtain ⟨k, hk, hkx⟩ := hx
    obtain ⟨y, hy, hy0⟩ := h k hk
    rw [← hkx, hy]
    exact hy0
  · exact Nat.cast_nonneg p

/-- C10 amended: at every row with the 14-delta window filled, whenever the
rolling averages of gains and losses are not both zero, the RSI is a
defined number in [0, 100]; a zero average loss with a positive average
gain gives RSI = 100 exactly. When both averages are zero (a flat window)
the RSI is NaN — undefined — and such rows are skipped when stored. -/
theorem rsi_bounds (cs : List Candle) (i : ℕ) (h14 : 14 ≤ i)
    (_hlen : i < cs.length)
    (hnz : ¬(avgGainAt cs i = FV.num 0 ∧ avgLossAt cs i = FV.num 0)) :
    ∃ q, rsiAt cs i = FV.num q ∧ 0 ≤ q ∧ q ≤ 100 := by
  obtain ⟨g, hg, hg0⟩ : ∃ g, avgGainAt cs i = FV.num g ∧ 0 ≤ g := by
    apply rollingMeanAt_num
    · omega
    · intro k hk
      exact gain_nonneg cs _ (by omega)
  obtain ⟨l, hl, hl0⟩ : ∃ l, avgLossAt cs i = FV.num l ∧ 0 ≤ l := by
    apply rollingMeanAt_num
    · omega
    · intro k hk
      exact loss_nonneg cs _ (by omega)
  unfold rsiAt rsAt
  rw [hg, hl]
  by_cases hlz : l = 0
  · subst hlz
    have hgne : g ≠ 0 := by
      intro hgz
      subst hgz
      exact hnz ⟨hg, hl⟩
    have hgpos : 0 < g := lt_of_le_of_ne hg0 (Ne.symm hgne)
    rw [show FV.div (FV.num g) (FV.num 0) = FV.pinf from by
      simp [FV.div, hgne, hgpos]]
    exact ⟨_, rfl, by norm_num, by norm_num⟩
  · have hlpos : 0 < l := lt_of_le_of_ne hl0 (Ne.symm hlz)
    rw [show FV.div (FV.num g) (FV.num l) = FV.num (g / l) from by
      simp [FV.div, hlz]]
    have hr0 : 0 ≤ g / l := div_nonneg hg0 (le_of_lt hlpos)
    have h1r : (1:ℚ) + g / l ≠ 0 := by positivity
    rw [show FV.add (FV.num 1) (FV.num (g / l)) = FV.num (1 + g / l) from rfl]
    rw [show FV.div (FV.num 100) (FV.num (1 + g / l)) =
        FV.num (100 / (1 + g / l)) from by simp [FV.div, h1r]]
    refine ⟨_, rfl, ?_, ?_⟩
    · have hle : 100 / (1 + g / l) ≤ 100 :=
        div_le_self (by norm_num) (by linarith)
      linarith
    · have hge : 0 ≤ 100 / (1 + g / l) := by positivity
      linarith

/-- Strictly rising closes so that the average gain is positive and the
average loss is zero over the filled window. -/
def candleWithClose (q : ℚ) : Candle :=
  { openTime := 0, openPrice := q, highPrice := q, lowPrice := q,
    closePrice := q, volume := 1, timestamp := 0 }

def risingCandles : List Candle :=
  [0, 1, 2, 3, 4, 5, 6, 7, 8, 9, 10, 11, 12, 13, 14].map candleWithClose

/-- Witness for C10 amended at the rising candle sequence (row 14 has
average gain 1 and average loss 0, hence RSI = 100). -/
theorem rsi_bounds_w :
    14 ≤ 14 ∧ 14 < risingCandles.length ∧
    ¬(avgGainAt risingCandles 14 = FV.num 0 ∧
      avgLossAt risingCandles 14 = FV.num 0) ∧
    ∃ q, rsiAt risingCandles 14 = FV.num q ∧ 0 ≤ q ∧ q ≤ 100 :=
  ⟨by decide, by with_unfolding_all decide, by with_unfolding_all decide,
   rsi_bounds risingCandles 14 (by decide) (by with_unfolding_all decide)
     (by with_unfolding_all decide)⟩

end TradingCore
